import Mathlib

/-!
Verification of the environment-scoped cache-client lifecycle and the mock
posts endpoint of the repository, via a shallow embedding.

Reference identity of client objects is modelled by an allocation counter:
every construction of a QueryClient receives a fresh numeric id, and two
results are the same object exactly when their ids coincide. The module-level
variable browserQueryClient becomes an explicit registry state threaded
through getQueryClient.
-/

set_option maxRecDepth 4096

/-- Fixed default options passed to the QueryClient constructor in
makeQueryClient (src/lib/get-query-client.ts lines 8 to 21). -/
structure QueryConfig where
  staleTime : Nat
  refetchOnWindowFocus : Bool
  retry : Nat
deriving DecidableEq, Repr

/-- The configuration literal of makeQueryClient: staleTime 60 * 1000,
refetchOnWindowFocus false, retry 1. -/
def defaultQueryConfig : QueryConfig :=
  { staleTime := 60 * 1000, refetchOnWindowFocus := false, retry := 1 }

/-- A cache client instance: an allocation id (standing for object identity)
plus the configuration fixed at construction. -/
structure QueryClient where
  id : Nat
  config : QueryConfig
deriving DecidableEq, Repr

/-- Process-wide state of the get-query-client module: the allocation counter
and the module-level variable browserQueryClient. -/
structure RegistryState where
  nextId : Nat
  browserQueryClient : Option QueryClient
deriving DecidableEq, Repr

/-- makeQueryClient: constructs a new QueryClient with the fixed default
options; the id argument is the fresh allocation id supplied by the caller. -/
def makeQueryClient (nid : Nat) : QueryClient :=
  { id := nid, config := defaultQueryConfig }

/-- getQueryClient (src/lib/get-query-client.ts lines 38 to 49): on the server
branch always construct a fresh client; on the browser branch construct and
store a singleton on first use, then return the stored one. -/
def getQueryClient (isServer : Bool) (s : RegistryState) :
    QueryClient × RegistryState :=
  if isServer then
    (makeQueryClient s.nextId, { s with nextId := s.nextId + 1 })
  else
    match s.browserQueryClient with
    | some c => (c, s)
    | none =>
        let c := makeQueryClient s.nextId
        (c, { nextId := s.nextId + 1, browserQueryClient := some c })

/-- The state of a fresh process: no browser singleton, no allocations yet. -/
def initState : RegistryState :=
  { nextId := 0, browserQueryClient := none }

/-- Run a sequence of getQueryClient calls, collecting the returned clients
and the final state. Each list entry is the isServer value of one call. -/
def runCalls : List Bool → RegistryState → List QueryClient × RegistryState
  | [], s => ([], s)
  | b :: bs, s =>
      let r := getQueryClient b s
      let rest := runCalls bs r.2
      (r.1 :: rest.1, rest.2)

/-- Number of calls in a sequence that change the stored browserQueryClient
reference. -/
def runWrites : List Bool → RegistryState → Nat
  | [], _ => 0
  | b :: bs, s =>
      let s1 := (getQueryClient b s).2
      (if s1.browserQueryClient = s.browserQueryClient then 0 else 1) +
        runWrites bs s1

/-- States reachable from a given state by any sequence of getQueryClient
calls. -/
inductive Reach : RegistryState → RegistryState → Prop
  | refl (s : RegistryState) : Reach s s
  | step (b : Bool) (s s' : RegistryState) :
      Reach s s' → Reach s (getQueryClient b s').2

/-- Well-formedness: a stored singleton was allocated before the current
value of the allocation counter. -/
def wf (s : RegistryState) : Prop :=
  ∀ c, s.browserQueryClient = some c → c.id < s.nextId

/-- Config invariant: a stored singleton carries the fixed default options. -/
def wfConfig (s : RegistryState) : Prop :=
  ∀ c, s.browserQueryClient = some c → c.config = defaultQueryConfig

/-! ### Mock posts endpoint (app/api/posts/route.ts) -/

/-- One post record of the fixed mock list. -/
structure Post where
  id : Nat
  title : String
  author : String
  createdAt : String
deriving DecidableEq, Repr

/-- The fixed mock post list of the route module. -/
def posts : List Post :=
  [ { id := 1, title := "TanStack Query 시작하기", author := "김개발",
      createdAt := "2025-01-15" },
    { id := 2, title := "CSR vs SSR 완벽 가이드", author := "이프론트",
      createdAt := "2025-01-20" },
    { id := 3, title := "Next.js App Router 이해하기", author := "박리액트",
      createdAt := "2025-02-01" },
    { id := 4, title := "React 19 새로운 기능들", author := "최자바",
      createdAt := "2025-02-10" },
    { id := 5, title := "Hydration이란 무엇인가?", author := "정타입",
      createdAt := "2025-02-15" } ]

/-- Response metadata returned by the GET handler. -/
structure Meta where
  fetchedAt : String
  totalCount : Nat
  executedOn : String
deriving DecidableEq, Repr

/-- Body of the JSON response of the GET handler. -/
structure PostsResponse where
  posts : List Post
  meta : Meta
deriving DecidableEq, Repr

/-- JavaScript parseInt with radix 10 on a string: skip leading whitespace,
read an optional sign and then leading decimal digits; none models NaN. -/
def parseInt10 (s : String) : Option Int :=
  let cs := s.data.dropWhile Char.isWhitespace
  match cs with
  | '-' :: rest =>
      let ds := rest.takeWhile Char.isDigit
      if ds.isEmpty then none
      else some (-(ds.foldl (fun a c => a * 10 + (c.toNat - 48)) 0 : Nat))
  | '+' :: rest =>
      let ds := rest.takeWhile Char.isDigit
      if ds.isEmpty then none
      else some ((ds.foldl (fun a c => a * 10 + (c.toNat - 48)) 0 : Nat))
  | _ =>
      let ds := cs.takeWhile Char.isDigit
      if ds.isEmpty then none
      else some ((ds.foldl (fun a c => a * 10 + (c.toNat - 48)) 0 : Nat))

/-- JavaScript x || d for a nullable string x: the default replaces both null
(absent parameter) and the empty string, the only falsy string. -/
def jsOrDefault (p : Option String) (d : String) : String :=
  match p with
  | none => d
  | some s => if s = "" then d else s

/-- Result of one GET call: the duration handed to setTimeout (none models
NaN), the response body, and the post store after the call. -/
structure GETResult where
  wait : Option Int
  response : PostsResponse
  store : List Post
deriving DecidableEq, Repr

/-- The GET handler of the mock endpoint: parse the delay query parameter
with default 1000, wait that long, then answer with the stored post list, a
timestamp, its length and the literal "server". The timestamp is an input
since the clock is ambient. -/
def GET (store : List Post) (delayParam : Option String) (now : String) :
    GETResult :=
  let delay := parseInt10 (jsOrDefault delayParam "1000")
  { wait := delay,
    response :=
      { posts := store,
        meta := { fetchedAt := now, totalCount := store.length,
                  executedOn := "server" } },
    store := store }

/-! ### Query options (src/hooks/usePosts.ts and the SSR page) -/

/-- One element of a TanStack query key: the keys here mix a string literal
with a numeric delay. -/
inductive KeyPart where
  | str : String → KeyPart
  | num : Int → KeyPart
deriving DecidableEq, Repr

/-- The options object built by queryOptions in usePosts.ts: the query key
and the delay captured by the query function fetchPosts. -/
structure PostsQueryOpts where
  queryKey : List KeyPart
  fetchDelay : Int
deriving DecidableEq, Repr

/-- postsQueryOptions (usePosts.ts lines 45 to 49): key is the pair of the
literal string posts and the delay; the query function fetches with that
same delay. -/
def postsQueryOptions (delay : Int) : PostsQueryOpts :=
  { queryKey := [KeyPart.str "posts", KeyPart.num delay],
    fetchDelay := delay }

/-- The options usePosts (usePosts.ts lines 59 to 61) passes to useQuery. -/
def usePostsOptions (delay : Int) : PostsQueryOpts :=
  postsQueryOptions delay

/-- The options usePostsSuspense (usePosts.ts lines 72 to 74) passes to
useSuspenseQuery. -/
def usePostsSuspenseOptions (delay : Int) : PostsQueryOpts :=
  postsQueryOptions delay

/-- The options the SSR page (app/ssr/page.tsx line 57) passes to
prefetchQuery. -/
def ssrPrefetchOptions : PostsQueryOpts :=
  postsQueryOptions 1500

/-! ### Basic lemmas about getQueryClient -/

/-- A server call is fully determined: fresh client, counter bumped, the
stored singleton untouched. -/
theorem getQueryClient_true_eq (s : RegistryState) :
    getQueryClient true s =
      (makeQueryClient s.nextId, { s with nextId := s.nextId + 1 }) := rfl

/-- A browser call with a stored singleton returns it and leaves the state
unchanged. -/
theorem getQueryClient_false_some (s : RegistryState) (c : QueryClient)
    (h : s.browserQueryClient = some c) :
    getQueryClient false s = (c, s) := by
  simp [getQueryClient, h]

/-- A browser call with no stored singleton constructs one, stores it and
returns it. -/
theorem getQueryClient_false_none (s : RegistryState)
    (h : s.browserQueryClient = none) :
    getQueryClient false s =
      (makeQueryClient s.nextId,
        { nextId := s.nextId + 1,
          browserQueryClient := some (makeQueryClient s.nextId) }) := by
  simp [getQueryClient, h]

/-- One call never decreases the allocation counter. -/
theorem nextId_le_step (b : Bool) (s : RegistryState) :
    s.nextId ≤ (getQueryClient b s).2.nextId := by
  cases b with
  | true => simp [getQueryClient]
  | false =>
      cases h : s.browserQueryClient with
      | some c => simp [getQueryClient_false_some s c h]
      | none => simp [getQueryClient_false_none s h]

/-- The allocation counter never decreases along any call sequence. -/
theorem Reach.nextId_le {s s' : RegistryState} (h : Reach s s') :
    s.nextId ≤ s'.nextId := by
  induction h with
  | refl t => exact Nat.le_refl _
  | step b t t' _ ih => exact Nat.le_trans ih (nextId_le_step b t')

/-- One call never replaces a stored singleton. -/
theorem browser_some_step (b : Bool) (s : RegistryState) (c : QueryClient)
    (h : s.browserQueryClient = some c) :
    (getQueryClient b s).2.browserQueryClient = some c := by
  cases b with
  | true => simpa [getQueryClient] using h
  | false =>
      rw [getQueryClient_false_some s c h]
      exact h

/-- A stored singleton persists along any call sequence. -/
theorem Reach.browser_some {s s' : RegistryState} (c : QueryClient)
    (h : Reach s s') :
    s.browserQueryClient = some c → s'.browserQueryClient = some c := by
  induction h with
  | refl t => exact id
  | step b t t' _ ih => exact fun hc => browser_some_step b t' c (ih hc)

/-- One call preserves well-formedness. -/
theorem wf_step (b : Bool) (s : RegistryState) (h : wf s) :
    wf (getQueryClient b s).2 := by
  cases b with
  | true =>
      intro c hc
      simp [getQueryClient] at hc
      exact Nat.lt_succ_of_lt (h c hc)
  | false =>
      cases hb : s.browserQueryClient with
      | some c0 =>
          intro c hc
          rw [getQueryClient_false_some s c0 hb] at hc ⊢
          exact h c hc
      | none =>
          intro c hc
          rw [getQueryClient_false_none s hb] at hc ⊢
          simp at hc
          subst hc
          simp [makeQueryClient]

/-- Well-formedness persists along any call sequence. -/
theorem Reach.wf_preserved {s s' : RegistryState} (h : Reach s s') :
    wf s → wf s' := by
  induction h with
  | refl t => exact id
  | step b t t' _ ih => exact fun hw => wf_step b t' (ih hw)

/-- A singleton stored in a reachable state either was already stored at the
start, or was allocated on the way and so has an id at least the starting
counter. -/
theorem Reach.browser_cases {s s' : RegistryState} (h : Reach s s') :
    ∀ c, s'.browserQueryClient = some c →
      s.browserQueryClient = some c ∨ s.nextId ≤ c.id := by
  induction h with
  | refl t => exact fun c hc => Or.inl hc
  | step b t t' ht ih =>
      intro c hc
      cases b with
      | true =>
          simp [getQueryClient] at hc
          exact ih c hc
      | false =>
          cases hb : t'.browserQueryClient with
          | some c0 =>
              rw [getQueryClient_false_some t' c0 hb] at hc
              exact ih c hc
          | none =>
              rw [getQueryClient_false_none t' hb] at hc
              simp at hc
              subst hc
              exact Or.inr (le_trans ht.nextId_le (Nat.le_refl _))

/-- The client a call returns has id below the resulting counter, given a
well-formed starting state. -/
theorem result_id_lt (b : Bool) (s : RegistryState) (h : wf s) :
    (getQueryClient b s).1.id < (getQueryClient b s).2.nextId := by
  cases b with
  | true => simp [getQueryClient, makeQueryClient]
  | false =>
      cases hb : s.browserQueryClient with
      | some c =>
          rw [getQueryClient_false_some s c hb]
          exact h c hb
      | none =>
          rw [getQueryClient_false_none s hb]
          simp [makeQueryClient]

/-- The initial state is well formed. -/
theorem wf_initState : wf initState := by
  intro c h
  simp [initState] at h

/-! ### Claim theorems -/

/-- C1: within one session (any call sequence started when no singleton is
stored), the first browser call constructs and stores the singleton, and
every later browser call returns that stored instance without modifying the
state. -/
theorem claim_C1_session_reuse (s0 s' : RegistryState)
    (h0 : s0.browserQueryClient = none)
    (h : Reach (getQueryClient false s0).2 s') :
    (getQueryClient false s0).2.browserQueryClient =
        some (getQueryClient false s0).1 ∧
    (getQueryClient false s').1 = (getQueryClient false s0).1 ∧
    (getQueryClient false s').2 = s' := by
  have hstore : (getQueryClient false s0).2.browserQueryClient =
      some (getQueryClient false s0).1 := by
    rw [getQueryClient_false_none s0 h0]
  have hsome : s'.browserQueryClient = some (getQueryClient false s0).1 :=
    Reach.browser_some _ h hstore
  rw [getQueryClient_false_some s' _ hsome]
  exact ⟨hstore, rfl, rfl⟩

/-- Witness for C1 at the initial state with the empty continuation. -/
theorem claim_C1_session_reuse_witness :
    initState.browserQueryClient = none ∧
    ((getQueryClient false initState).2.browserQueryClient =
        some (getQueryClient false initState).1 ∧
      (getQueryClient false (getQueryClient false initState).2).1 =
        (getQueryClient false initState).1 ∧
      (getQueryClient false (getQueryClient false initState).2).2 =
        (getQueryClient false initState).2) :=
  ⟨rfl, claim_C1_session_reuse initState (getQueryClient false initState).2
      rfl (Reach.refl _)⟩

/-- C2: two server calls, the second made in any state reachable after the
first, return distinct instances, and a server call never stores its result
in the module variable. -/
theorem claim_C2_server_isolation (s s' : RegistryState)
    (h : Reach (getQueryClient true s).2 s') :
    (getQueryClient true s').1 ≠ (getQueryClient true s).1 ∧
    (getQueryClient true s).2.browserQueryClient = s.browserQueryClient := by
  refine ⟨?_, rfl⟩
  intro heq
  have hid := congrArg QueryClient.id heq
  simp only [getQueryClient_true_eq, makeQueryClient] at hid
  have hle : s.nextId + 1 ≤ s'.nextId := by
    simpa [getQueryClient] using h.nextId_le
  omega

/-- Witness for C2: two consecutive server calls from the initial state. -/
theorem claim_C2_server_isolation_witness :
    (getQueryClient true (getQueryClient true initState).2).1 ≠
        (getQueryClient true initState).1 ∧
    (getQueryClient true initState).2.browserQueryClient =
        initState.browserQueryClient :=
  claim_C2_server_isolation initState (getQueryClient true initState).2
    (Reach.refl _)

/-- C3: in a well formed state, a server call result is never the same
instance as any browser call result, in either order of the two calls and
with any calls in between. -/
theorem claim_C3_cross_scope_distinct (s s' : RegistryState) (hwf : wf s) :
    (Reach (getQueryClient true s).2 s' →
        (getQueryClient false s').1 ≠ (getQueryClient true s).1) ∧
    (Reach (getQueryClient false s).2 s' →
        (getQueryClient true s').1 ≠ (getQueryClient false s).1) := by
  constructor
  · intro h heq
    have hid := congrArg QueryClient.id heq
    have hle : s.nextId + 1 ≤ s'.nextId := by
      simpa [getQueryClient] using h.nextId_le
    cases hb : s'.browserQueryClient with
    | none =>
        rw [getQueryClient_false_none s' hb] at hid
        simp only [getQueryClient_true_eq, makeQueryClient] at hid
        omega
    | some c =>
        rw [getQueryClient_false_some s' c hb] at hid
        simp only [getQueryClient_true_eq, makeQueryClient] at hid
        cases (Reach.browser_cases h) c hb with
        | inl hin =>
            have hs : s.browserQueryClient = some c := by
              simpa [getQueryClient] using hin
            have := hwf c hs
            omega
        | inr hge =>
            have : s.nextId + 1 ≤ c.id := by
              simpa [getQueryClient] using hge
            omega
  · intro h heq
    have hid := congrArg QueryClient.id heq
    have hlt := result_id_lt false s hwf
    have hle := h.nextId_le
    have h1 : (getQueryClient true s').1.id = s'.nextId := rfl
    rw [h1] at hid
    omega

/-- Witness for C3: one server call and one browser call from the initial
state, in both orders, with the empty continuation. -/
theorem claim_C3_cross_scope_distinct_witness :
    (getQueryClient false (getQueryClient true initState).2).1 ≠
        (getQueryClient true initState).1 ∧
    (getQueryClient true (getQueryClient false initState).2).1 ≠
        (getQueryClient false initState).1 :=
  ⟨(claim_C3_cross_scope_distinct initState
        (getQueryClient true initState).2 wf_initState).1 (Reach.refl _),
    (claim_C3_cross_scope_distinct initState
        (getQueryClient false initState).2 wf_initState).2 (Reach.refl _)⟩

/-- The initial state satisfies the config invariant. -/
theorem wfConfig_initState : wfConfig initState := by
  intro c h
  simp [initState] at h

/-- Under the config invariant, every call returns a client with the fixed
default options. -/
theorem result_config (b : Bool) (s : RegistryState) (h : wfConfig s) :
    (getQueryClient b s).1.config = defaultQueryConfig := by
  cases b with
  | true => rfl
  | false =>
      cases hb : s.browserQueryClient with
      | some c =>
          rw [getQueryClient_false_some s c hb]
          exact h c hb
      | none =>
          rw [getQueryClient_false_none s hb]
          rfl

/-- One call preserves the config invariant. -/
theorem wfConfig_step (b : Bool) (s : RegistryState) (h : wfConfig s) :
    wfConfig (getQueryClient b s).2 := by
  cases b with
  | true =>
      intro c hc
      simp [getQueryClient] at hc
      exact h c hc
  | false =>
      cases hb : s.browserQueryClient with
      | some c0 =>
          intro c hc
          rw [getQueryClient_false_some s c0 hb] at hc
          exact h c hc
      | none =>
          intro c hc
          rw [getQueryClient_false_none s hb] at hc
          simp at hc
          subst hc
          rfl

/-- C4: in any call sequence from a state satisfying the config invariant,
every returned client carries staleTime 60000, refetchOnWindowFocus false
and retry 1, the values fixed at construction by makeQueryClient. -/
theorem claim_C4_fixed_config (bs : List Bool) (s : RegistryState)
    (h : wfConfig s) :
    ∀ c ∈ (runCalls bs s).1,
      c.config.staleTime = 60000 ∧
      c.config.refetchOnWindowFocus = false ∧
      c.config.retry = 1 := by
  induction bs generalizing s with
  | nil =>
      intro c hc
      simp [runCalls] at hc
  | cons b bs ih =>
      intro c hc
      simp only [runCalls, List.mem_cons] at hc
      cases hc with
      | inl hhead =>
          subst hhead
          rw [result_config b s h]
          exact ⟨rfl, rfl, rfl⟩
      | inr htail =>
          exact ih (getQueryClient b s).2 (wfConfig_step b s h) c htail

/-- Witness for C4: the client returned by one server call from the initial
state. -/
theorem claim_C4_fixed_config_witness :
    (makeQueryClient 0).config.staleTime = 60000 ∧
    (makeQueryClient 0).config.refetchOnWindowFocus = false ∧
    (makeQueryClient 0).config.retry = 1 :=
  claim_C4_fixed_config [true] initState wfConfig_initState
    (makeQueryClient 0) (by simp [runCalls, getQueryClient, initState])

/-- In a state holding a stored singleton, no later call sequence ever
changes the stored reference. -/
theorem runWrites_of_some (bs : List Bool) (s : RegistryState)
    (c : QueryClient) (h : s.browserQueryClient = some c) :
    runWrites bs s = 0 := by
  induction bs generalizing s with
  | nil => rfl
  | cons b bs ih =>
      have h1 : (getQueryClient b s).2.browserQueryClient = some c :=
        browser_some_step b s c h
      simp only [runWrites]
      rw [ih (getQueryClient b s).2 h1]
      simp [h1, h]

/-- From a state with no stored singleton, a call sequence performs exactly
one write of the stored reference when it contains a browser call, and none
otherwise. -/
theorem runWrites_of_none (bs : List Bool) (s : RegistryState)
    (h : s.browserQueryClient = none) :
    runWrites bs s = if bs.contains false then 1 else 0 := by
  induction bs generalizing s with
  | nil => rfl
  | cons b bs ih =>
      cases b with
      | true =>
          have h1 : (getQueryClient true s).2.browserQueryClient = none := h
          simp only [runWrites]
          rw [ih (getQueryClient true s).2 h1]
          simp [h1, h]
      | false =>
          have h1 : (getQueryClient false s).2.browserQueryClient =
              some (makeQueryClient s.nextId) := by
            rw [getQueryClient_false_none s h]
          simp only [runWrites]
          rw [runWrites_of_some bs _ _ h1]
          simp [h1, h]

/-- C8: server calls never write the stored singleton reference, browser
calls after the first read it without modifying any state, and over any call
sequence from the initial state exactly one write occurs, namely when the
sequence contains a browser call. -/
theorem claim_C8_single_write :
    (∀ s : RegistryState,
        (getQueryClient true s).2.browserQueryClient =
          s.browserQueryClient) ∧
    (∀ (s : RegistryState) (c : QueryClient),
        s.browserQueryClient = some c → getQueryClient false s = (c, s)) ∧
    (∀ bs : List Bool,
        runWrites bs initState = if bs.contains false then 1 else 0) :=
  ⟨fun _ => rfl, getQueryClient_false_some,
    fun bs => runWrites_of_none bs initState rfl⟩

/-- Witness for C8: a concrete mixed call sequence from the initial state
performs exactly one write. -/
theorem claim_C8_single_write_witness :
    (getQueryClient true initState).2.browserQueryClient =
        initState.browserQueryClient ∧
    getQueryClient false (getQueryClient false initState).2 =
      ((getQueryClient false initState).1,
        (getQueryClient false initState).2) ∧
    runWrites [true, false, false, true] initState = 1 :=
  ⟨claim_C8_single_write.1 initState,
    claim_C8_single_write.2.1 (getQueryClient false initState).2
      (getQueryClient false initState).1 rfl,
    by simpa using claim_C8_single_write.2.2 [true, false, false, true]⟩

/-- C5: for every delay parameter value, the GET handler on the fixed post
store answers with totalCount equal to the length of the post list, which is
5, with executedOn equal to the string server, and with exactly the fixed
ordered post list as its posts field. -/
theorem claim_C5_response_shape (delayParam : Option String) (now : String) :
    (GET posts delayParam now).response.meta.totalCount = posts.length ∧
    posts.length = 5 ∧
    (GET posts delayParam now).response.meta.executedOn = "server" ∧
    (GET posts delayParam now).response.posts = posts :=
  ⟨rfl, rfl, rfl, rfl⟩

/-- C6: when the delay parameter parses as an integer the handler waits
exactly that value, and when the parameter is absent the default 1000 is
used. -/
theorem claim_C6_delay_default :
    (∀ (st : List Post) (s : String) (n : Int) (now : String),
        parseInt10 s = some n → (GET st (some s) now).wait = some n) ∧
    (∀ (st : List Post) (now : String),
        (GET st none now).wait = some 1000) := by
  constructor
  · intro st s n now h
    by_cases hs : s = ""
    · subst hs
      have he : parseInt10 "" = none := by decide
      rw [he] at h
      exact Option.noConfusion h
    · simp [GET, jsOrDefault, hs, h]
  · intro st now
    have he : parseInt10 "1000" = some 1000 := by decide
    simp [GET, jsOrDefault, he]

/-- Witness for C6: a parseable parameter of 250 and an absent parameter. -/
theorem claim_C6_delay_default_witness :
    (GET posts (some "250") "t").wait = some 250 ∧
    (GET posts none "t").wait = some 1000 :=
  ⟨claim_C6_delay_default.1 posts "250" 250 "t" (by decide),
    claim_C6_delay_default.2 posts "t"⟩

/-- C7: two GET calls with the same delay parameter agree on everything but
the timestamp, and a call returns the post store unchanged. -/
theorem claim_C7_read_only (st : List Post) (p : Option String)
    (ts1 ts2 : String) :
    (GET st p ts1).response.posts = (GET st p ts2).response.posts ∧
    (GET st p ts1).response.meta.totalCount =
      (GET st p ts2).response.meta.totalCount ∧
    (GET st p ts1).response.meta.executedOn =
      (GET st p ts2).response.meta.executedOn ∧
    (GET st p ts1).wait = (GET st p ts2).wait ∧
    (GET st p ts1).store = st :=
  ⟨rfl, rfl, rfl, rfl, rfl⟩

/-- C9: a present, nonempty but unparseable delay such as abc makes the wait
duration NaN rather than the default; the 1000 fallback applies exactly when
the parameter is absent or the empty string. -/
theorem claim_C9_malformed_delay (st : List Post) (now : String) :
    (GET st (some "abc") now).wait = none ∧
    (GET st none now).wait = some 1000 ∧
    (GET st (some "") now).wait = some 1000 ∧
    (∀ s : String, (GET st (some s) now).wait =
        if s = "" then some 1000 else parseInt10 s) := by
  have habc : parseInt10 "abc" = none := by decide
  have hdef : parseInt10 "1000" = some 1000 := by decide
  refine ⟨?_, ?_, ?_, ?_⟩
  · simp [GET, jsOrDefault, habc]
  · simp [GET, jsOrDefault, hdef]
  · simp [GET, jsOrDefault, hdef]
  · intro s
    by_cases hs : s = ""
    · subst hs
      simp [GET, jsOrDefault, hdef]
    · simp [GET, jsOrDefault, hs]

/-- C10: postsQueryOptions is deterministic with key exactly the literal
posts paired with the delay, the key is injective in the delay, the same
options constructor is what usePosts, usePostsSuspense and the SSR page
prefetch pass on, and the SSR prefetch key matches a hook key exactly when
the hook delay is 1500. -/
theorem claim_C10_query_key_injective :
    (∀ d : Int, (postsQueryOptions d).queryKey =
        [KeyPart.str "posts", KeyPart.num d]) ∧
    (∀ d1 d2 : Int, ((postsQueryOptions d1).queryKey =
        (postsQueryOptions d2).queryKey ↔ d1 = d2)) ∧
    (∀ d : Int, usePostsOptions d = postsQueryOptions d) ∧
    (∀ d : Int, usePostsSuspenseOptions d = postsQueryOptions d) ∧
    ssrPrefetchOptions = postsQueryOptions 1500 ∧
    (∀ d : Int, (ssrPrefetchOptions.queryKey =
        (postsQueryOptions d).queryKey ↔ d = 1500)) := by
  refine ⟨fun d => rfl, ?_, fun d => rfl, fun d => rfl, rfl, ?_⟩
  · intro d1 d2
    constructor
    · intro h
      simpa [postsQueryOptions] using h
    · intro h
      rw [h]
  · intro d
    constructor
    · intro h
      have : (1500 : Int) = d := by
        simpa [ssrPrefetchOptions, postsQueryOptions] using h
      omega
    · intro h
      rw [h]
      rfl
